import Mathlib

/-!
Shallow embedding of the ElectricBoat electrical-network calculation and
validation engine (src/models/types.ts, src/data/cableStandards.ts,
src/utils/calculations/power.ts, src/utils/calculations/battery.ts,
src/utils/calculations/cables.ts, src/utils/calculations/validation.ts).

JavaScript numbers are modelled by `ℚ`; the JavaScript `Infinity` produced by
the two guarded divisions in battery sizing and cable sizing is modelled by
`Option ℚ` with `none` standing for infinity.  `Math.round` is `⌊x + 1/2⌋`.
Presentation-only fields (human-readable messages, icons, canvas positions,
colours) are elided: no computation of the engine reads them.
-/

namespace ElectricBoat

/-- The closed set of nominal system voltages (TS `type Voltage = 12 | 24 | 48`). -/
inductive Voltage
  | v12
  | v24
  | v48
  deriving DecidableEq, Repr

/-- Numeric value of a nominal voltage. -/
def Voltage.toQ : Voltage → ℚ
  | .v12 => 12
  | .v24 => 24
  | .v48 => 48

/-- TS `type NodeType` (closed tag set). -/
inductive NodeType
  | consumer
  | battery
  | solar
  | alternator
  | charger
  | inverter
  | bus
  | fuse
  | switch
  deriving DecidableEq, Repr

/-- TS `type BatteryChemistry`. -/
inductive BatteryChemistry
  | lead
  | agm
  | gel
  | lifepo4
  | lithium
  deriving DecidableEq, Repr

/-- TS `'series' | 'parallel'` (battery bank configuration). -/
inductive BatteryConfig
  | series
  | parallel
  deriving DecidableEq, Repr

/-- Type-specific attributes of a node (TS `NodeSpecificProps`, a discriminated
union on `type`).  Optional TS fields become `Option ℚ`.  Sub-fields the engine
never reads (`category`, `dod`, `chargeCurrentA`, `inputVoltage`,
`outputVoltage`, `portCount`, `fuseType`, `isOn`, `switchType`) are elided. -/
inductive NodeProps
  | consumer (powerW currentA : Option ℚ) (dailyHours dutyCycle : ℚ)
  | battery (capacityAh : ℚ) (chemistry : BatteryChemistry)
      (quantity : Option ℚ) (configuration : Option BatteryConfig)
  | solar (maxPowerW : ℚ) (efficiency : Option ℚ) (quantity : Option ℚ)
  | alternator (maxPowerW : ℚ) (efficiency : Option ℚ) (engineHoursPerDay : Option ℚ)
  | charger (maxPowerW : ℚ)
  | inverter (maxPowerW : ℚ) (efficiency : Option ℚ)
  | bus (maxCurrentA : ℚ)
  | fuse (ratingA : ℚ)
  | twoWaySwitch (maxCurrentA : ℚ)
  deriving DecidableEq, Repr

/-- TS `ElectricalNode = ElectricalNodeBase & NodeSpecificProps`.  Base fields
`name`, `icon`, `position`, `rotation`, `locked` are presentational and elided. -/
structure ElectricalNode where
  id : String
  voltage : Voltage
  props : NodeProps
  deriving DecidableEq, Repr

/-- The discriminant tag of a node (`node.type`). -/
def ElectricalNode.type (n : ElectricalNode) : NodeType :=
  match n.props with
  | .consumer _ _ _ _ => .consumer
  | .battery _ _ _ _ => .battery
  | .solar _ _ _ => .solar
  | .alternator _ _ _ => .alternator
  | .charger _ => .charger
  | .inverter _ _ => .inverter
  | .bus _ => .bus
  | .fuse _ => .fuse
  | .twoWaySwitch _ => .switch

/-- TS `Connection`.  `cableType`, ports, waypoints, colour, label and the
derived output fields `voltageDrop`/`fuseRating` are not read by the engine
and are elided. -/
structure Connection where
  id : String
  fromNodeId : String
  toNodeId : String
  sectionMm2 : ℚ
  lengthM : ℚ
  deriving DecidableEq, Repr

/-- TS `CableSpec` reference row (`awg` and `usageHint` are presentational). -/
structure CableSpec where
  sectionMm2 : ℚ
  maxCurrentA : ℚ
  recommendedFuseA : ℚ
  resistancePerKm : ℚ
  deriving DecidableEq, Repr

/-- The standard cable table of `src/data/cableStandards.ts`, in source order
(ascending sections). -/
def cableStandards : List CableSpec :=
  [ ⟨0.5, 3, 3, 36.7⟩
  , ⟨0.75, 6, 5, 24.8⟩
  , ⟨1.0, 10, 7.5, 18.2⟩
  , ⟨1.5, 15, 10, 12.2⟩
  , ⟨2.5, 20, 15, 7.41⟩
  , ⟨4, 30, 25, 4.61⟩
  , ⟨6, 40, 30, 3.08⟩
  , ⟨10, 60, 50, 1.83⟩
  , ⟨16, 80, 60, 1.15⟩
  , ⟨25, 110, 80, 0.727⟩
  , ⟨35, 140, 100, 0.524⟩
  , ⟨50, 175, 150, 0.387⟩
  , ⟨70, 215, 175, 0.268⟩
  , ⟨95, 265, 200, 0.193⟩
  , ⟨120, 310, 250, 0.153⟩ ]

/-- `COPPER_RESISTIVITY` (Ω·mm²/m). -/
def COPPER_RESISTIVITY : ℚ := 0.0175

/-- `MAX_VOLTAGE_DROP_PERCENT` (%). -/
def MAX_VOLTAGE_DROP_PERCENT : ℚ := 3

/-- JavaScript `Math.round` (half rounds toward +∞). -/
def jsRound (x : ℚ) : ℚ := ((⌊x + 1/2⌋ : ℤ) : ℚ)

/-! ## Power/Energy model (`power.ts`) -/

/-- `DEFAULT_SUN_HOURS`. -/
def DEFAULT_SUN_HOURS : ℚ := 5

/-- `DEFAULT_SOLAR_EFFICIENCY`. -/
def DEFAULT_SOLAR_EFFICIENCY : ℚ := 0.7

/-- `DEFAULT_ALTERNATOR_EFFICIENCY`. -/
def DEFAULT_ALTERNATOR_EFFICIENCY : ℚ := 0.85

/-- `getNodeCurrent`: a consumer's current; `currentA` if set, else
`powerW / voltage`, else 0; non-consumers give 0. -/
def getNodeCurrent (node : ElectricalNode) : ℚ :=
  match node.props with
  | .consumer powerW currentA _ _ =>
    match currentA with
    | some c => c
    | none =>
      match powerW with
      | some p => p / node.voltage.toQ
      | none => 0
  | _ => 0

/-- `getNodePower`: a consumer's power; `powerW` if set, else
`currentA × voltage`, else 0; non-consumers give 0. -/
def getNodePower (node : ElectricalNode) : ℚ :=
  match node.props with
  | .consumer powerW currentA _ _ =>
    match powerW with
    | some p => p
    | none =>
      match currentA with
      | some c => c * node.voltage.toQ
      | none => 0
  | _ => 0

/-- `getNodeDailyAh = current × dailyHours × dutyCycle` for consumers. -/
def getNodeDailyAh (node : ElectricalNode) : ℚ :=
  match node.props with
  | .consumer _ _ dailyHours dutyCycle => getNodeCurrent node * dailyHours * dutyCycle
  | _ => 0

/-- `getTotalDailyConsumptionAh`: sum of `getNodeDailyAh` over consumers. -/
def getTotalDailyConsumptionAh (nodes : List ElectricalNode) : ℚ :=
  (nodes.filter fun n => n.type = .consumer).foldl (fun sum n => sum + getNodeDailyAh n) 0

/-- `getSolarDailyAh = maxPowerW × quantity × sunHours × efficiency / voltage`. -/
def getSolarDailyAh (node : ElectricalNode) (sunHours : ℚ) : ℚ :=
  match node.props with
  | .solar maxPowerW efficiency quantity =>
    maxPowerW * quantity.getD 1 * sunHours * (efficiency.getD DEFAULT_SOLAR_EFFICIENCY)
      / node.voltage.toQ
  | _ => 0

/-- `getTotalSolarDailyAh`. -/
def getTotalSolarDailyAh (nodes : List ElectricalNode) (sunHours : ℚ) : ℚ :=
  (nodes.filter fun n => n.type = .solar).foldl (fun sum n => sum + getSolarDailyAh n sunHours) 0

/-- `getAlternatorDailyAh = (maxPowerW × efficiency / voltage) × engineHoursPerDay`. -/
def getAlternatorDailyAh (node : ElectricalNode) : ℚ :=
  match node.props with
  | .alternator maxPowerW efficiency engineHoursPerDay =>
    maxPowerW * (efficiency.getD DEFAULT_ALTERNATOR_EFFICIENCY) / node.voltage.toQ
      * engineHoursPerDay.getD 0
  | _ => 0

/-- `getTotalAlternatorDailyAh`. -/
def getTotalAlternatorDailyAh (nodes : List ElectricalNode) : ℚ :=
  (nodes.filter fun n => n.type = .alternator).foldl (fun sum n => sum + getAlternatorDailyAh n) 0

/-- `getChargerDailyAh(node, hoursPlugged = 0) = maxPowerW / voltage × hoursPlugged`.
The source's doc comment assumes 8 h of charge when plugged in, but the
parameter defaults to 0. -/
def getChargerDailyAh (node : ElectricalNode) (hoursPlugged : ℚ) : ℚ :=
  match node.props with
  | .charger maxPowerW => maxPowerW / node.voltage.toQ * hoursPlugged
  | _ => 0

/-- `getTotalDailyProductionAh(nodes, sunHours = 5)`: solar plus alternator
daily production.  Charger nodes are not included by the source. -/
def getTotalDailyProductionAh (nodes : List ElectricalNode) (sunHours : ℚ) : ℚ :=
  getTotalSolarDailyAh nodes sunHours + getTotalAlternatorDailyAh nodes

/-! ## Battery sizing (`battery.ts`) -/

/-- `DOD_BY_CHEMISTRY`. -/
def DOD_BY_CHEMISTRY : BatteryChemistry → ℚ
  | .lead => 0.5
  | .agm => 0.5
  | .gel => 0.5
  | .lifepo4 => 0.8
  | .lithium => 0.8

/-- `DEFAULT_DAYS_AUTONOMY`. -/
def DEFAULT_DAYS_AUTONOMY : ℚ := 2

/-- `getTotalBatteryCapacityAh`: over battery nodes, `capacityAh × (quantity ?? 1)`
for `parallel` configuration (the default when absent), `capacityAh` once for
`series`.  (The TS `'capacityAh' in n` guard always holds on the battery
variant of the union.) -/
def getTotalBatteryCapacityAh (nodes : List ElectricalNode) : ℚ :=
  (nodes.filter fun n => n.type = .battery).foldl
    (fun sum n =>
      match n.props with
      | .battery capacityAh _ quantity configuration =>
        if configuration.getD .parallel = .parallel then
          sum + capacityAh * quantity.getD 1
        else
          sum + capacityAh
      | _ => sum) 0

/-- Accumulate capacity per chemistry, preserving first-encounter order of
keys (JS object insertion order). -/
def addChemCap (acc : List (BatteryChemistry × ℚ)) (chem : BatteryChemistry) (cap : ℚ) :
    List (BatteryChemistry × ℚ) :=
  match acc with
  | [] => [(chem, cap)]
  | (c, v) :: rest =>
    if c = chem then (c, v + cap) :: rest else (c, v) :: addChemCap rest chem cap

/-- `getDominantBatteryChemistry`: chemistry with the largest installed
capacity (weighted by quantity); strict `>` comparison breaks ties in favour
of the first-encountered chemistry; `lead` when there is no battery. -/
def getDominantBatteryChemistry (nodes : List ElectricalNode) : BatteryChemistry :=
  let batteries := nodes.filter fun n => n.type = .battery
  if batteries.isEmpty then .lead
  else
    let caps := batteries.foldl
      (fun acc n =>
        match n.props with
        | .battery capacityAh chemistry quantity _ =>
          addChemCap acc chemistry (capacityAh * quantity.getD 1)
        | _ => acc) []
    (caps.foldl (fun best e => if e.2 > best.2 then e else best) (.lead, 0)).1

/-- `getEffectiveDoD`. -/
def getEffectiveDoD (nodes : List ElectricalNode) : ℚ :=
  DOD_BY_CHEMISTRY (getDominantBatteryChemistry nodes)

/-- `getUsableBatteryCapacityAh = totalCapacity × effectiveDoD`. -/
def getUsableBatteryCapacityAh (nodes : List ElectricalNode) : ℚ :=
  getTotalBatteryCapacityAh nodes * getEffectiveDoD nodes

/-- `getEstimatedAutonomyDays`; `none` models the JS `Infinity` returned when
`dailyConsumptionAh <= 0`. -/
def getEstimatedAutonomyDays (usableCapacityAh dailyConsumptionAh : ℚ) : Option ℚ :=
  if dailyConsumptionAh ≤ 0 then none else some (usableCapacityAh / dailyConsumptionAh)

/-- `getEstimatedAutonomyDaysFromNodes`. -/
def getEstimatedAutonomyDaysFromNodes (nodes : List ElectricalNode) : Option ℚ :=
  getEstimatedAutonomyDays (getUsableBatteryCapacityAh nodes) (getTotalDailyConsumptionAh nodes)

/-- `'ok' | 'warning' | 'critical'`. -/
inductive BatteryStatus
  | ok
  | warning
  | critical
  deriving DecidableEq, Repr

/-- Comparison `autonomy ≥ threshold` where `none` is `Infinity`. -/
def autonomyGe (autonomy : Option ℚ) (threshold : ℚ) : Bool :=
  match autonomy with
  | none => true
  | some a => threshold ≤ a

/-- `getBatteryStatus(nodes, requiredAutonomyDays = 2)`. -/
def getBatteryStatus (nodes : List ElectricalNode) (requiredAutonomyDays : ℚ) : BatteryStatus :=
  let estimatedAutonomy := getEstimatedAutonomyDaysFromNodes nodes
  if autonomyGe estimatedAutonomy requiredAutonomyDays then .ok
  else if autonomyGe estimatedAutonomy (requiredAutonomyDays * 0.5) then .warning
  else .critical

/-! ## Cable analysis (`cables.ts`) -/

/-- `calculateVoltageDrop: ΔV = 2 × ρ × L × I / S` (factor 2 for the return
path).  `sectionMm2 > 0` is a caller contract; `ℚ` division is total. -/
def calculateVoltageDrop (currentA lengthM sectionMm2 : ℚ) : ℚ :=
  2 * COPPER_RESISTIVITY * lengthM * currentA / sectionMm2

/-- `calculateVoltageDropPercent`. -/
def calculateVoltageDropPercent (currentA lengthM sectionMm2 voltage : ℚ) : ℚ :=
  calculateVoltageDrop currentA lengthM sectionMm2 / voltage * 100

/-- `calculatePowerLoss: P = I² × (2 × ρ × L / S)`. -/
def calculatePowerLoss (currentA lengthM sectionMm2 : ℚ) : ℚ :=
  currentA * currentA * (2 * COPPER_RESISTIVITY * lengthM / sectionMm2)

/-- `calculateMinSection`; `none` models the JS `Infinity` returned when
`maxDropVolts <= 0`. -/
def calculateMinSection (currentA lengthM voltage maxDropPercent : ℚ) : Option ℚ :=
  let maxDropVolts := voltage * (maxDropPercent / 100)
  if maxDropVolts ≤ 0 then none
  else some (2 * COPPER_RESISTIVITY * lengthM * currentA / maxDropVolts)

/-- Last row of the standard table (`cableStandards[cableStandards.length - 1]`,
the table being a fixed non-empty constant). -/
def lastStandardSpec : CableSpec := (cableStandards.getLast?).getD ⟨0, 0, 0, 0⟩

/-- `getRecommendedSection(currentA, lengthM, voltage, maxDropPercent = 3)`:
max of the voltage-drop minimum section and the section of the first standard
row rated for `currentA × 1.25` (0.5 when none), rounded up to the next
standard section; the largest standard section when none is large enough
(or when the drop minimum is `Infinity`). -/
def getRecommendedSection (currentA lengthM voltage maxDropPercent : ℚ) : ℚ :=
  let minSectionForDrop := calculateMinSection currentA lengthM voltage maxDropPercent
  let requiredCurrent := currentA * 1.25
  let minSectionForCurrent :=
    ((cableStandards.find? fun s => requiredCurrent ≤ s.maxCurrentA).map
      CableSpec.sectionMm2).getD 0.5
  match minSectionForDrop with
  | none => lastStandardSpec.sectionMm2
  | some d =>
    let minSection := max d minSectionForCurrent
    ((cableStandards.find? fun s => minSection ≤ s.sectionMm2).map
      CableSpec.sectionMm2).getD lastStandardSpec.sectionMm2

/-- `isCableOversized`: installed section exceeds 1.5 × the recommended one. -/
def isCableOversized (connection : Connection) (currentA voltage : ℚ) : Bool :=
  connection.sectionMm2 >
    getRecommendedSection currentA connection.lengthM voltage MAX_VOLTAGE_DROP_PERCENT * 1.5

/-- `'ok' | 'warning' | 'overload'`. -/
inductive CableStatus
  | ok
  | warning
  | overload
  deriving DecidableEq, Repr

/-- TS `CableAnalysis`. -/
structure CableAnalysis where
  connectionId : String
  currentA : ℚ
  voltageDrop : ℚ
  voltageDropPercent : ℚ
  powerLossW : ℚ
  recommendedSectionMm2 : ℚ
  status : CableStatus
  deriving DecidableEq, Repr

/-- The current-inference heuristic at the top of `analyzeCable`: a consumer
endpoint's current (`from` first), else `capacityAh / 5` when the `from`
endpoint is a battery, else 0. -/
def cableCurrent (fromNode toNode : ElectricalNode) : ℚ :=
  if fromNode.type = .consumer then getNodeCurrent fromNode
  else if toNode.type = .consumer then getNodeCurrent toNode
  else
    match fromNode.props with
    | .battery capacityAh _ _ _ => capacityAh / 5
    | _ => 0

/-- `analyzeCable(connection, fromNode, toNode)`. -/
def analyzeCable (connection : Connection) (fromNode toNode : ElectricalNode) : CableAnalysis :=
  let currentA := cableCurrent fromNode toNode
  let voltage := fromNode.voltage.toQ
  let voltageDrop := calculateVoltageDrop currentA connection.lengthM connection.sectionMm2
  let voltageDropPercent := voltageDrop / voltage * 100
  let powerLossW := calculatePowerLoss currentA connection.lengthM connection.sectionMm2
  let recommendedSection :=
    getRecommendedSection currentA connection.lengthM voltage MAX_VOLTAGE_DROP_PERCENT
  let cableSpec := cableStandards.find? fun s => s.sectionMm2 = connection.sectionMm2
  let maxCurrent := (cableSpec.map CableSpec.maxCurrentA).getD 0
  let status : CableStatus :=
    if maxCurrent < currentA then .overload
    else if MAX_VOLTAGE_DROP_PERCENT < voltageDropPercent then .warning
    else .ok
  ⟨connection.id, jsRound (currentA * 10) / 10, jsRound (voltageDrop * 1000) / 1000,
    jsRound (voltageDropPercent * 100) / 100, jsRound (powerLossW * 10) / 10,
    recommendedSection, status⟩

/-- JS `Map` built from the node array, then `get`: the last node with a given
id wins (later `Map.set` overwrites earlier ones). -/
def nodeMapGet (nodes : List ElectricalNode) (id : String) : Option ElectricalNode :=
  nodes.reverse.find? fun n => n.id = id

/-- The per-connection body of `analyzeAllCables`: a zero-valued row when an
endpoint id resolves to no node. -/
def analyzeOneCable (nodes : List ElectricalNode) (conn : Connection) : CableAnalysis :=
  match nodeMapGet nodes conn.fromNodeId, nodeMapGet nodes conn.toNodeId with
  | some fromNode, some toNode => analyzeCable conn fromNode toNode
  | _, _ => ⟨conn.id, 0, 0, 0, 0, 0.5, .ok⟩

/-- `analyzeAllCables(connections, nodes)` (order-preserving, one row per
connection). -/
def analyzeAllCables (connections : List Connection) (nodes : List ElectricalNode) :
    List CableAnalysis :=
  connections.map (analyzeOneCable nodes)

/-! ## Circuit validation (`validation.ts`) -/

/-- TS `ValidationError['type']`. -/
inductive ErrType
  | voltageMismatch
  | overcurrent
  | noSource
  | disconnected
  deriving DecidableEq, Repr

/-- TS `ValidationWarning['type']`. -/
inductive WarnType
  | voltageDrop
  | undersizedCable
  | lowBattery
  | unbalanced
  deriving DecidableEq, Repr

/-- TS `ValidationError` (human-readable `message` elided). -/
structure ValidationError where
  etype : ErrType
  nodeIds : Option (List String)
  connectionId : Option String
  deriving DecidableEq, Repr

/-- TS `ValidationWarning` (human-readable `message` elided). -/
structure ValidationWarning where
  wtype : WarnType
  nodeIds : Option (List String)
  connectionId : Option String
  deriving DecidableEq, Repr

/-- TS `CircuitValidation`. -/
structure CircuitValidation where
  isValid : Bool
  errors : List ValidationError
  warnings : List ValidationWarning
  deriving DecidableEq, Repr

/-- The per-connection body of `checkVoltageMismatch`: an error tagged with
both node ids and the connection id when both endpoints resolve and their
voltages differ; nothing when an endpoint is missing or voltages agree. -/
def voltageMismatchOf (nodes : List ElectricalNode) (conn : Connection) :
    List ValidationError :=
  match nodeMapGet nodes conn.fromNodeId, nodeMapGet nodes conn.toNodeId with
  | some fromNode, some toNode =>
    if fromNode.voltage ≠ toNode.voltage then
      [⟨.voltageMismatch, some [fromNode.id, toNode.id], some conn.id⟩]
    else []
  | _, _ => []

/-- `checkVoltageMismatch(nodes, connections)`. -/
def checkVoltageMismatch (nodes : List ElectricalNode) (connections : List Connection) :
    List ValidationError :=
  connections.foldr (fun conn acc => voltageMismatchOf nodes conn ++ acc) []

/-- The `Set` of ids appearing as a connection endpoint. -/
def connectedNodeIds (connections : List Connection) : List String :=
  connections.foldr (fun c acc => c.fromNodeId :: c.toNodeId :: acc) []

/-- `checkDisconnectedNodes`: a warning (the source reuses the
`voltage_drop` tag) for every node other than bus/switch/fuse appearing in no
connection. -/
def checkDisconnectedNodes (nodes : List ElectricalNode) (connections : List Connection) :
    List ValidationWarning :=
  nodes.foldr
    (fun n acc =>
      if n.type = .bus ∨ n.type = .switch ∨ n.type = .fuse then acc
      else if (connectedNodeIds connections).contains n.id then acc
      else ⟨.voltageDrop, some [n.id], none⟩ :: acc) []

/-- `validateCircuit(nodes, connections)`: errors are the no-source check, the
voltage-mismatch check and the overload rows; warnings are disconnected nodes,
excess-voltage-drop rows, undersized cables, battery status and the energy
balance; `isValid` iff the error list is empty. -/
def validateCircuit (nodes : List ElectricalNode) (connections : List Connection) :
    CircuitValidation :=
  let hasBattery := nodes.any fun n => n.type = .battery
  let noSourceErrors : List ValidationError :=
    if hasBattery then [] else [⟨.noSource, none, none⟩]
  let voltageErrors := checkVoltageMismatch nodes connections
  let disconnectedWarnings := checkDisconnectedNodes nodes connections
  let cableAnalyses := analyzeAllCables connections nodes
  let overcurrentErrors : List ValidationError :=
    cableAnalyses.foldr
      (fun a acc =>
        if a.status = .overload then ⟨.overcurrent, none, some a.connectionId⟩ :: acc else acc)
      []
  let cableWarnings : List ValidationWarning :=
    cableAnalyses.foldr
      (fun a acc =>
        (if a.status = .warning then [⟨.voltageDrop, none, some a.connectionId⟩] else [])
          ++ (if 0 < a.recommendedSectionMm2 then
                match connections.find? (fun c => c.id = a.connectionId) with
                | some conn =>
                  if conn.sectionMm2 < a.recommendedSectionMm2 then
                    [⟨.undersizedCable, none, some a.connectionId⟩]
                  else []
                | none => []
              else [])
          ++ acc)
      []
  let batteryWarnings : List ValidationWarning :=
    match getBatteryStatus nodes DEFAULT_DAYS_AUTONOMY with
    | .critical => [⟨.lowBattery, none, none⟩]
    | .warning => [⟨.lowBattery, none, none⟩]
    | .ok => []
  let dailyConsumption := getTotalDailyConsumptionAh nodes
  let dailyProduction := getTotalDailyProductionAh nodes DEFAULT_SUN_HOURS
  let unbalancedWarnings : List ValidationWarning :=
    if 0 < dailyProduction ∧ 0 < dailyConsumption ∧ dailyProduction / dailyConsumption < 0.8
    then [⟨.unbalanced, none, none⟩]
    else []
  let errors := noSourceErrors ++ voltageErrors ++ overcurrentErrors
  let warnings := disconnectedWarnings ++ cableWarnings ++ batteryWarnings ++ unbalancedWarnings
  ⟨errors.isEmpty, errors, warnings⟩

/-! ## Connectivity (`validation.ts`, BFS) -/

/-- The source-type test of `isNodeConnectedToSource`. -/
def isSourceNode (n : ElectricalNode) : Bool :=
  decide (n.type = .battery) || decide (n.type = .solar) || decide (n.type = .alternator) || decide (n.type = .charger)

/-- `nodes.find(n => n.id === id)`: first match wins. -/
def findNode (nodes : List ElectricalNode) (id : String) : Option ElectricalNode :=
  nodes.find? fun n => n.id = id

/-- The neighbour ids pushed for `u` by the BFS loop body, in connection
order (`toNodeId` then `fromNodeId` per connection, each only when not yet
visited). -/
def bfsNeighbors (connections : List Connection) (visited : List String) (u : String) :
    List String :=
  connections.foldr
    (fun conn acc =>
      (if decide (conn.fromNodeId = u) && !(visited.contains conn.toNodeId)
       then [conn.toNodeId] else [])
        ++ ((if decide (conn.toNodeId = u) && !(visited.contains conn.fromNodeId)
             then [conn.fromNodeId] else [])
        ++ acc))
    []

/-- Every id the BFS can ever enqueue when started at `start`. -/
def bfsIds (start : String) (connections : List Connection) : List String :=
  start :: connectedNodeIds connections

theorem connectedNodeIds_cons (c : Connection) (cs : List Connection) :
    connectedNodeIds (c :: cs) = c.fromNodeId :: c.toNodeId :: connectedNodeIds cs := rfl

theorem bfsNeighbors_cons (c : Connection) (cs : List Connection) (visited : List String)
    (u : String) :
    bfsNeighbors (c :: cs) visited u =
      (if decide (c.fromNodeId = u) && !(visited.contains c.toNodeId) then [c.toNodeId] else [])
        ++ ((if decide (c.toNodeId = u) && !(visited.contains c.fromNodeId) then [c.fromNodeId] else [])
        ++ bfsNeighbors cs visited u) := rfl

theorem mem_connectedNodeIds_of_mem_bfsNeighbors {connections : List Connection}
    {visited : List String} {u x : String} (h : x ∈ bfsNeighbors connections visited u) :
    x ∈ connectedNodeIds connections := by
  induction connections with
  | nil => simp [bfsNeighbors] at h
  | cons c cs ih =>
    rw [bfsNeighbors_cons] at h
    rw [connectedNodeIds_cons]
    rcases List.mem_append.mp h with h1 | h2
    · split at h1
      · simp at h1
        simp [h1]
      · simp at h1
    · rcases List.mem_append.mp h2 with h3 | h4
      · split at h3
        · simp at h3
          simp [h3]
        · simp at h3
      · simp [ih h4]

theorem list_contains_iff (l : List String) (a : String) : l.contains a = true ↔ a ∈ l := by
  induction l with
  | nil => simp
  | cons x xs ih => simp [List.contains_cons, ih, List.mem_cons]

theorem card_diff_cons_lt {ids visited : List String} {u : String} (hu : u ∈ ids)
    (hv : u ∉ visited) :
    ((ids.toFinset \ (u :: visited).toFinset).card < (ids.toFinset \ visited.toFinset).card) := by
  have hsub : ids.toFinset \ (u :: visited).toFinset ⊆ ids.toFinset \ visited.toFinset := by
    rw [List.toFinset_cons]
    exact Finset.sdiff_subset_sdiff (Finset.Subset.refl _) (Finset.subset_insert _ _)
  have hmem : u ∈ ids.toFinset \ visited.toFinset :=
    Finset.mem_sdiff.mpr ⟨List.mem_toFinset.mpr hu, fun h => hv (List.mem_toFinset.mp h)⟩
  have hnot : u ∉ ids.toFinset \ (u :: visited).toFinset := by simp
  exact Finset.card_lt_card ((Finset.ssubset_iff_of_subset hsub).mpr ⟨u, hmem, hnot⟩)

/-- The `while (queue.length > 0)` loop of `isNodeConnectedToSource`: pop the
head, skip if visited, mark visited, look the node up (a missing node's
neighbours are not explored), answer `true` on a source-type node, otherwise
enqueue the unvisited neighbours.  The invariant that every queued id occurs
in `bfsIds` bounds the visited set and makes the loop terminate. -/
def bfsAux (nodes : List ElectricalNode) (connections : List Connection) (start : String)
    (visited queue : List String)
    (hq : ∀ x ∈ queue, x ∈ bfsIds start connections) : Bool :=
  match queue with
  | [] => false
  | u :: rest =>
    if hv : visited.contains u then
      bfsAux nodes connections start visited rest
        (fun x hx => hq x (List.mem_cons_of_mem u hx))
    else
      match findNode nodes u with
      | none =>
        bfsAux nodes connections start (u :: visited) rest
          (fun x hx => hq x (List.mem_cons_of_mem u hx))
      | some n =>
        if isSourceNode n then true
        else
          bfsAux nodes connections start (u :: visited)
            (rest ++ bfsNeighbors connections (u :: visited) u)
            (fun x hx => by
              rcases List.mem_append.mp hx with h | h
              · exact hq x (List.mem_cons_of_mem u h)
              · exact List.mem_cons_of_mem _ (mem_connectedNodeIds_of_mem_bfsNeighbors h))
termination_by (((bfsIds start connections).toFinset \ visited.toFinset).card, queue.length)
decreasing_by
  · exact Prod.Lex.right _ (Nat.lt_succ_self _)
  · exact Prod.Lex.left _ _
      (card_diff_cons_lt (hq u (List.mem_cons_self u rest))
        (fun h => hv ((list_contains_iff visited u).mpr h)))
  · exact Prod.Lex.left _ _
      (card_diff_cons_lt (hq u (List.mem_cons_self u rest))
        (fun h => hv ((list_contains_iff visited u).mpr h)))

/-- `isNodeConnectedToSource(nodeId, nodes, connections)`. -/
def isNodeConnectedToSource (nodeId : String) (nodes : List ElectricalNode)
    (connections : List Connection) : Bool :=
  bfsAux nodes connections nodeId [] [nodeId]
    (fun x hx => by
      rw [List.mem_singleton] at hx
      rw [hx]
      exact List.mem_cons_self _ _)

/-- `findUnpoweredConsumers`: the consumer nodes not connected to a source. -/
def findUnpoweredConsumers (nodes : List ElectricalNode) (connections : List Connection) :
    List ElectricalNode :=
  (nodes.filter fun n => n.type = .consumer).filter
    fun n => !(isNodeConnectedToSource n.id nodes connections)

/-- Two ids joined by some connection, in either direction (the undirected
edge relation of the node/connection graph). -/
def Adjacent (connections : List Connection) (a b : String) : Prop :=
  ∃ conn ∈ connections,
    (conn.fromNodeId = a ∧ conn.toNodeId = b) ∨ (conn.toNodeId = a ∧ conn.fromNodeId = b)

/-- A source-type node is reachable from `id` through a chain of connections
whose intermediate ids all resolve to nodes (the graph whose vertices are
the existing nodes and whose edges are the connections). -/
inductive ReachableSource (nodes : List ElectricalNode) (connections : List Connection) :
    String → Prop
  | found (id : String) (n : ElectricalNode) (hfind : findNode nodes id = some n)
      (hsrc : isSourceNode n = true) : ReachableSource nodes connections id
  | step (id next : String) (n : ElectricalNode) (hfind : findNode nodes id = some n)
      (hadj : Adjacent connections id next)
      (hnext : ReachableSource nodes connections next) : ReachableSource nodes connections id

/-! ## General lemmas about the validator -/

theorem validateCircuit_errors (nodes : List ElectricalNode) (connections : List Connection) :
    (validateCircuit nodes connections).errors =
      (if nodes.any (fun n => n.type = .battery) then [] else [⟨.noSource, none, none⟩])
        ++ checkVoltageMismatch nodes connections
        ++ (analyzeAllCables connections nodes).foldr
            (fun a acc =>
              if a.status = .overload then ⟨.overcurrent, none, some a.connectionId⟩ :: acc
              else acc)
            [] := rfl

theorem checkVoltageMismatch_cons (nodes : List ElectricalNode) (c : Connection)
    (cs : List Connection) :
    checkVoltageMismatch nodes (c :: cs) =
      voltageMismatchOf nodes c ++ checkVoltageMismatch nodes cs := rfl

theorem mem_checkVoltageMismatch_of_mem {nodes : List ElectricalNode} {conns : List Connection}
    {conn : Connection} (hconn : conn ∈ conns) {e : ValidationError}
    (he : e ∈ voltageMismatchOf nodes conn) : e ∈ checkVoltageMismatch nodes conns := by
  induction conns with
  | nil => simp at hconn
  | cons c cs ih =>
    rw [checkVoltageMismatch_cons]
    rcases List.mem_cons.mp hconn with rfl | hmem
    · exact List.mem_append_left _ he
    · exact List.mem_append_right _ (ih hmem)

theorem etype_of_mem_voltageMismatchOf {nodes : List ElectricalNode} {conn : Connection}
    {e : ValidationError} (he : e ∈ voltageMismatchOf nodes conn) :
    e.etype = .voltageMismatch := by
  unfold voltageMismatchOf at he
  split at he
  · split at he
    · rcases List.mem_singleton.mp he with rfl
      rfl
    · simp at he
  · simp at he

theorem etype_of_mem_checkVoltageMismatch {nodes : List ElectricalNode}
    {conns : List Connection} {e : ValidationError} (he : e ∈ checkVoltageMismatch nodes conns) :
    e.etype = .voltageMismatch := by
  induction conns with
  | nil => simp [checkVoltageMismatch] at he
  | cons c cs ih =>
    rw [checkVoltageMismatch_cons] at he
    rcases List.mem_append.mp he with h | h
    · exact etype_of_mem_voltageMismatchOf h
    · exact ih h

theorem etype_of_mem_overcurrent {analyses : List CableAnalysis} {e : ValidationError}
    (he : e ∈ analyses.foldr
      (fun a acc =>
        if a.status = .overload then ⟨.overcurrent, none, some a.connectionId⟩ :: acc else acc)
      []) : e.etype = .overcurrent := by
  induction analyses with
  | nil => simp at he
  | cons a as ih =>
    simp only [List.foldr_cons] at he
    split at he
    · rcases List.mem_cons.mp he with rfl | h
      · rfl
      · exact ih h
    · exact ih he

/-- C1: for every connection whose two endpoints both resolve and carry
different voltages, `validateCircuit` emits a `voltage_mismatch` error with
both node ids and the connection id; on the concrete graph of one 12 V
battery wired to one 24 V consumer it returns exactly that single error and
`isValid = false`. -/
theorem voltage_mismatch_errors :
    (∀ (nodes : List ElectricalNode) (conns : List Connection) (conn : Connection)
        (fn tn : ElectricalNode),
        conn ∈ conns →
        nodeMapGet nodes conn.fromNodeId = some fn →
        nodeMapGet nodes conn.toNodeId = some tn →
        fn.voltage ≠ tn.voltage →
        (⟨.voltageMismatch, some [fn.id, tn.id], some conn.id⟩ : ValidationError)
          ∈ (validateCircuit nodes conns).errors)
    ∧ (validateCircuit
          [⟨"bat1", .v12, .battery 100 .lead none none⟩,
           ⟨"cons1", .v24, .consumer (some 120) none 0 1⟩]
          [⟨"conn1", "bat1", "cons1", 2.5, 1⟩]).errors
        = [⟨.voltageMismatch, some ["bat1", "cons1"], some "conn1"⟩]
    ∧ (validateCircuit
          [⟨"bat1", .v12, .battery 100 .lead none none⟩,
           ⟨"cons1", .v24, .consumer (some 120) none 0 1⟩]
          [⟨"conn1", "bat1", "cons1", 2.5, 1⟩]).isValid = false := by
  refine ⟨?_, ?_, ?_⟩
  · intro nodes conns conn fn tn hconn hfrom hto hne
    rw [validateCircuit_errors]
    refine List.mem_append_left _ (List.mem_append_right _ ?_)
    refine mem_checkVoltageMismatch_of_mem hconn ?_
    simp [voltageMismatchOf, hfrom, hto, hne]
  · norm_num [validateCircuit, checkVoltageMismatch, voltageMismatchOf, nodeMapGet, findNode,
      analyzeAllCables, analyzeOneCable, analyzeCable, cableCurrent, getNodeCurrent,
      ElectricalNode.type, Voltage.toQ, jsRound, calculateVoltageDrop, calculatePowerLoss,
      getRecommendedSection, calculateMinSection, cableStandards, lastStandardSpec,
      COPPER_RESISTIVITY, MAX_VOLTAGE_DROP_PERCENT, List.find?,
      (by decide : (decide ("cons1" = "bat1")) = false),
      (by decide : ¬ (Voltage.v12 = Voltage.v24)),
      (by decide : ¬ (NodeType.battery = NodeType.consumer)),
      (by decide : ¬ (CableStatus.ok = CableStatus.overload))]
  · norm_num [validateCircuit, checkVoltageMismatch, voltageMismatchOf, nodeMapGet, findNode,
      analyzeAllCables, analyzeOneCable, analyzeCable, cableCurrent, getNodeCurrent,
      ElectricalNode.type, Voltage.toQ, jsRound, calculateVoltageDrop, calculatePowerLoss,
      getRecommendedSection, calculateMinSection, cableStandards, lastStandardSpec,
      COPPER_RESISTIVITY, MAX_VOLTAGE_DROP_PERCENT, List.find?,
      (by decide : (decide ("cons1" = "bat1")) = false),
      (by decide : ¬ (Voltage.v12 = Voltage.v24)),
      (by decide : ¬ (NodeType.battery = NodeType.consumer)),
      (by decide : ¬ (CableStatus.ok = CableStatus.overload))]

/-- C1 witness: the general clause applied to the concrete two-node graph. -/
theorem voltage_mismatch_errors_witness :
    (⟨.voltageMismatch, some ["bat1", "cons1"], some "conn1"⟩ : ValidationError)
      ∈ (validateCircuit
          [⟨"bat1", .v12, .battery 100 .lead none none⟩,
           ⟨"cons1", .v24, .consumer (some 120) none 0 1⟩]
          [⟨"conn1", "bat1", "cons1", 2.5, 1⟩]).errors :=
  voltage_mismatch_errors.1 _ _ ⟨"conn1", "bat1", "cons1", 2.5, 1⟩
    ⟨"bat1", .v12, .battery 100 .lead none none⟩
    ⟨"cons1", .v24, .consumer (some 120) none 0 1⟩
    (List.mem_singleton.mpr rfl) (by simp [nodeMapGet, findNode, List.find?])
    (by simp [nodeMapGet, findNode, List.find?]) (by simp)

/-- C10: `validateCircuit` reports `isValid = true` exactly when its error
list is empty; every error is one of `no_source`, `voltage_mismatch`,
`overcurrent`, and every warning one of the four warning tags, so warnings
never affect validity. -/
theorem isValid_iff_no_errors :
    ∀ (nodes : List ElectricalNode) (conns : List Connection),
      ((validateCircuit nodes conns).isValid = true ↔ (validateCircuit nodes conns).errors = [])
      ∧ (∀ e ∈ (validateCircuit nodes conns).errors,
          e.etype = .noSource ∨ e.etype = .voltageMismatch ∨ e.etype = .overcurrent)
      ∧ (∀ w ∈ (validateCircuit nodes conns).warnings,
          w.wtype = .voltageDrop ∨ w.wtype = .undersizedCable ∨ w.wtype = .lowBattery
            ∨ w.wtype = .unbalanced) := by
  intro nodes conns
  refine ⟨?_, ?_, ?_⟩
  · show ((validateCircuit nodes conns).errors.isEmpty = true ↔ _)
    exact List.isEmpty_iff
  · intro e he
    rw [validateCircuit_errors] at he
    rcases List.mem_append.mp he with h | h
    · rcases List.mem_append.mp h with h1 | h2
      · left
        split at h1
        · simp at h1
        · rcases List.mem_singleton.mp h1 with rfl
          rfl
      · right; left
        exact etype_of_mem_checkVoltageMismatch h2
    · right; right
      exact etype_of_mem_overcurrent h
  · intro w _
    rcases w with ⟨wt, _, _⟩
    rcases wt with _ | _ | _ | _ <;> simp

/-- C10 witness: the equivalence and the error taxonomy at the empty graph,
whose single `no_source` error makes it invalid. -/
theorem isValid_iff_no_errors_witness :
    ((validateCircuit [] []).isValid = true ↔ (validateCircuit [] []).errors = [])
    ∧ ((⟨.noSource, none, none⟩ : ValidationError).etype = .noSource
      ∨ (⟨.noSource, none, none⟩ : ValidationError).etype = .voltageMismatch
      ∨ (⟨.noSource, none, none⟩ : ValidationError).etype = .overcurrent) :=
  ⟨(isValid_iff_no_errors [] []).1,
   (isValid_iff_no_errors [] []).2.1 ⟨.noSource, none, none⟩
     (by simp [validateCircuit, checkVoltageMismatch, analyzeAllCables])⟩

/-- C9: a connection referencing a missing node id degrades gracefully: its
analysis row is zero-valued with status `ok` (the default recommended section
being the smallest 0.5 mm² row), and the voltage-mismatch check contributes
nothing for it; both functions are total, so no exception can propagate. -/
theorem dangling_connection_graceful :
    ∀ (nodes : List ElectricalNode) (conns : List Connection) (conn : Connection),
      (nodeMapGet nodes conn.fromNodeId = none ∨ nodeMapGet nodes conn.toNodeId = none) →
      analyzeOneCable nodes conn = ⟨conn.id, 0, 0, 0, 0, 0.5, .ok⟩
      ∧ voltageMismatchOf nodes conn = []
      ∧ (conn ∈ conns →
          (⟨conn.id, 0, 0, 0, 0, 0.5, .ok⟩ : CableAnalysis) ∈ analyzeAllCables conns nodes) := by
  intro nodes conns conn hmiss
  have h1 : analyzeOneCable nodes conn = ⟨conn.id, 0, 0, 0, 0, 0.5, .ok⟩ := by
    rcases hmiss with h | h
    · cases hy : nodeMapGet nodes conn.toNodeId <;> simp [analyzeOneCable, h, hy]
    · cases hy : nodeMapGet nodes conn.fromNodeId <;> simp [analyzeOneCable, h, hy]
  have h2 : voltageMismatchOf nodes conn = [] := by
    rcases hmiss with h | h
    · cases hy : nodeMapGet nodes conn.toNodeId <;> simp [voltageMismatchOf, h, hy]
    · cases hy : nodeMapGet nodes conn.fromNodeId <;> simp [voltageMismatchOf, h, hy]
  exact ⟨h1, h2, fun hc => List.mem_map.mpr ⟨conn, hc, h1⟩⟩

/-- C9 witness: a connection whose endpoints match no node at all. -/
theorem dangling_connection_graceful_witness :
    analyzeOneCable [] ⟨"c9", "ghost", "ghost2", 1, 1⟩ = ⟨"c9", 0, 0, 0, 0, 0.5, .ok⟩
    ∧ voltageMismatchOf [] ⟨"c9", "ghost", "ghost2", 1, 1⟩ = []
    ∧ (⟨"c9", 0, 0, 0, 0, 0.5, .ok⟩ : CableAnalysis)
        ∈ analyzeAllCables [⟨"c9", "ghost", "ghost2", 1, 1⟩] [] := by
  have h := dangling_connection_graceful [] [⟨"c9", "ghost", "ghost2", 1, 1⟩]
    ⟨"c9", "ghost", "ghost2", 1, 1⟩ (Or.inl rfl)
  exact ⟨h.1, h.2.1, h.2.2 (List.mem_singleton.mpr rfl)⟩

/-! ## Battery capacity aggregation -/

/-- The capacity contributed by one node to `getTotalBatteryCapacityAh`:
`capacityAh × quantity` for a parallel (or unconfigured) battery bank,
`capacityAh` once for a series bank, 0 for non-batteries. -/
def batteryContributionAh (n : ElectricalNode) : ℚ :=
  match n.props with
  | .battery capacityAh _ quantity configuration =>
    if configuration.getD .parallel = .parallel then capacityAh * quantity.getD 1
    else capacityAh
  | _ => 0

theorem batteryFoldBody_eq (s : ℚ) (n : ElectricalNode) :
    (match n.props with
      | NodeProps.battery capacityAh _ quantity configuration =>
        if configuration.getD .parallel = .parallel then s + capacityAh * quantity.getD 1
        else s + capacityAh
      | _ => s) = s + batteryContributionAh n := by
  cases hp : n.props <;> simp [batteryContributionAh, hp]
  split <;> simp

theorem foldl_add_eq_sum {α : Type} (f : α → ℚ) (l : List α) :
    ∀ a : ℚ, l.foldl (fun s x => s + f x) a = a + (l.map f).sum := by
  induction l with
  | nil => intro a; simp
  | cons x xs ih =>
    intro a
    rw [List.foldl_cons, ih (a + f x), List.map_cons, List.sum_cons]
    ring

theorem batteryContributionAh_eq_zero {n : ElectricalNode} (h : ¬ n.type = .battery) :
    batteryContributionAh n = 0 := by
  cases hp : n.props <;> simp [batteryContributionAh, hp]
  exact absurd (by simp [ElectricalNode.type, hp]) h

theorem sum_map_filter_battery (nodes : List ElectricalNode) :
    (((nodes.filter fun n => n.type = .battery).map batteryContributionAh).sum)
      = (nodes.map batteryContributionAh).sum := by
  induction nodes with
  | nil => rfl
  | cons n ns ih =>
    by_cases h : n.type = .battery
    · simp [List.filter_cons, h, ih]
    · simp [List.filter_cons, h, ih, batteryContributionAh_eq_zero h]

/-- C6: the total installed capacity is the sum over all nodes of the
per-battery contribution, which is `capacityAh × quantity` for a parallel
bank (also when the configuration is absent, parallel being the default, and
with quantity defaulting to 1) and `capacityAh` once, independent of
quantity, for a series bank; so the total is linear in the quantity of
parallel banks and invariant in the quantity of series banks. -/
theorem battery_capacity_series_parallel :
    ∀ nodes : List ElectricalNode,
      getTotalBatteryCapacityAh nodes = (nodes.map batteryContributionAh).sum
      ∧ (∀ (id : String) (v : Voltage) (cap : ℚ) (chem : BatteryChemistry) (q : Option ℚ),
          batteryContributionAh ⟨id, v, .battery cap chem q (some .series)⟩ = cap)
      ∧ (∀ (id : String) (v : Voltage) (cap : ℚ) (chem : BatteryChemistry) (qq : ℚ),
          batteryContributionAh ⟨id, v, .battery cap chem (some qq) (some .parallel)⟩ = cap * qq)
      ∧ (∀ (id : String) (v : Voltage) (cap : ℚ) (chem : BatteryChemistry),
          batteryContributionAh ⟨id, v, .battery cap chem none none⟩ = cap * 1) := by
  intro nodes
  refine ⟨?_, ?_, ?_, ?_⟩
  · have hbody :
        (fun (sum : ℚ) (n : ElectricalNode) =>
          (match n.props with
            | NodeProps.battery capacityAh _ quantity configuration =>
              if configuration.getD .parallel = .parallel then
                sum + capacityAh * quantity.getD 1
              else sum + capacityAh
            | _ => sum))
          = fun (s : ℚ) (n : ElectricalNode) => s + batteryContributionAh n := by
      funext s n
      exact batteryFoldBody_eq s n
    unfold getTotalBatteryCapacityAh
    rw [hbody, foldl_add_eq_sum, zero_add, sum_map_filter_battery]
  · intro id v cap chem q
    simp [batteryContributionAh]
  · intro id v cap chem qq
    simp [batteryContributionAh]
  · intro id v cap chem
    simp [batteryContributionAh]

/-! ## Power/current relation (C5) -/

theorem voltage_toQ_ne_zero (v : Voltage) : v.toQ ≠ 0 := by
  cases v <;> norm_num [Voltage.toQ]

/-- C5 counterexample: a consumer with both `powerW = 120` and `currentA = 5`
at 12 V; `getNodePower` answers 120 (powerW first) but `getNodeCurrent`
answers 5 (currentA first), so `power / voltage = 10 ≠ 5 = current` and
`powerW` is not authoritative for the current. -/
theorem power_current_both_set_counterexample :
    getNodePower ⟨"c5", .v12, .consumer (some 120) (some 5) 1 1⟩ = 120
    ∧ getNodeCurrent ⟨"c5", .v12, .consumer (some 120) (some 5) 1 1⟩ = 5
    ∧ ¬ (getNodePower ⟨"c5", .v12, .consumer (some 120) (some 5) 1 1⟩ / Voltage.v12.toQ
          = getNodeCurrent ⟨"c5", .v12, .consumer (some 120) (some 5) 1 1⟩) := by
  norm_num [getNodePower, getNodeCurrent, Voltage.toQ]

/-- C5 amended: for a consumer with at most one of `powerW`/`currentA` set,
`getNodePower / voltage = getNodeCurrent` holds exactly; when both are set,
`getNodePower` answers `powerW` while `getNodeCurrent` answers `currentA`
(each field is authoritative for its own reader), and the relation holds iff
the two stored figures are consistent (`powerW = currentA × voltage`). -/
theorem consumer_power_current_relation :
    ∀ (id : String) (v : Voltage) (pw ca : Option ℚ) (dh dc : ℚ),
      (pw = none ∨ ca = none →
        getNodePower ⟨id, v, .consumer pw ca dh dc⟩ / v.toQ
          = getNodeCurrent ⟨id, v, .consumer pw ca dh dc⟩)
      ∧ (∀ p c : ℚ, pw = some p → ca = some c →
          getNodePower ⟨id, v, .consumer pw ca dh dc⟩ = p
          ∧ getNodeCurrent ⟨id, v, .consumer pw ca dh dc⟩ = c
          ∧ (getNodePower ⟨id, v, .consumer pw ca dh dc⟩ / v.toQ
              = getNodeCurrent ⟨id, v, .consumer pw ca dh dc⟩ ↔ p = c * v.toQ)) := by
  intro id v pw ca dh dc
  have hv : v.toQ ≠ 0 := voltage_toQ_ne_zero v
  constructor
  · rintro (rfl | rfl)
    · cases ca with
      | none => simp [getNodePower, getNodeCurrent]
      | some c =>
        simp only [getNodePower, getNodeCurrent]
        exact mul_div_cancel_right₀ c hv
    · cases pw with
      | none => simp [getNodePower, getNodeCurrent]
      | some p => simp [getNodePower, getNodeCurrent]
  · rintro p c rfl rfl
    refine ⟨rfl, rfl, ?_⟩
    simp only [getNodePower, getNodeCurrent]
    exact div_eq_iff hv

/-- C5 witness: a consumer with only `powerW = 120` set at 12 V. -/
theorem consumer_power_current_relation_witness :
    getNodePower ⟨"w5", .v12, .consumer (some 120) none 1 1⟩ / Voltage.v12.toQ
      = getNodeCurrent ⟨"w5", .v12, .consumer (some 120) none 1 1⟩ :=
  (consumer_power_current_relation "w5" .v12 (some 120) none 1 1).1 (Or.inr rfl)

/-! ## Cable current inference (C3) -/

/-- C3 counterexample: a bus→battery connection; the battery sits at the `to`
endpoint, exposes `capacityAh = 100` (so the claimed C/5 current is 20 A),
yet `analyzeCable` infers 0 A because only the `from` endpoint is tested for
the battery heuristic. -/
theorem analyzeCable_to_battery_counterexample :
    (analyzeCable ⟨"c3", "bus1", "bat9", 2.5, 1⟩ ⟨"bus1", .v12, .bus 100⟩
        ⟨"bat9", .v12, .battery 100 .lead none none⟩).currentA = 0
    ∧ (100 : ℚ) / 5 = 20
    ∧ (0 : ℚ) ≠ 20 := by
  refine ⟨?_, by norm_num, by norm_num⟩
  norm_num [analyzeCable, cableCurrent, ElectricalNode.type, getNodeCurrent, jsRound,
    (by decide : ¬ (NodeType.bus = NodeType.consumer)),
    (by decide : ¬ (NodeType.battery = NodeType.consumer))]

/-- C3 amended: the current used by `analyzeCable` is the consumer endpoint's
current (`from` first, then `to`); otherwise `capacityAh / 5` only when the
`from` endpoint is a battery (a battery at the `to` endpoint is ignored);
otherwise 0.  The reported `currentA` and `voltageDrop` are that current and
its voltage drop, rounded to 1 and 3 decimals. -/
theorem analyzeCable_current_rule :
    ∀ (conn : Connection) (fn tn : ElectricalNode),
      cableCurrent fn tn =
        (if fn.type = .consumer then getNodeCurrent fn
         else if tn.type = .consumer then getNodeCurrent tn
         else match fn.props with
           | .battery capacityAh _ _ _ => capacityAh / 5
           | _ => 0)
      ∧ (analyzeCable conn fn tn).currentA = jsRound (cableCurrent fn tn * 10) / 10
      ∧ (analyzeCable conn fn tn).voltageDrop
          = jsRound (calculateVoltageDrop (cableCurrent fn tn) conn.lengthM conn.sectionMm2
              * 1000) / 1000 :=
  fun _ _ _ => ⟨rfl, rfl, rfl⟩

/-! ## Daily production aggregate (C4) -/

/-- C4 counterexample: a single 120 W charger node at 12 V produces 80 Ah per
day under the source's own 8 h plugged-in assumption, yet the production
aggregate over the node array is 0: charger nodes do not contribute. -/
theorem production_excludes_chargers_counterexample :
    getTotalDailyProductionAh [⟨"ch1", .v12, .charger 120⟩] 5 = 0
    ∧ getChargerDailyAh ⟨"ch1", .v12, .charger 120⟩ 8 = 80
    ∧ (80 : ℚ) ≠ 0 := by
  refine ⟨?_, by norm_num [getChargerDailyAh, Voltage.toQ], by norm_num⟩
  norm_num [getTotalDailyProductionAh, getTotalSolarDailyAh, getTotalAlternatorDailyAh,
    List.filter_cons, ElectricalNode.type,
    (by decide : (decide (NodeType.charger = NodeType.solar)) = false),
    (by decide : (decide (NodeType.charger = NodeType.alternator)) = false)]

/-- C4 amended: the daily production aggregate is the solar total plus the
alternator total and nothing else; adding any charger node to the array
leaves it unchanged. -/
theorem production_solar_alternator_only :
    ∀ (nodes : List ElectricalNode) (sunHours : ℚ),
      getTotalDailyProductionAh nodes sunHours
        = getTotalSolarDailyAh nodes sunHours + getTotalAlternatorDailyAh nodes
      ∧ ∀ n : ElectricalNode, n.type = .charger →
          getTotalDailyProductionAh (n :: nodes) sunHours
            = getTotalDailyProductionAh nodes sunHours := by
  intro nodes sunHours
  refine ⟨rfl, ?_⟩
  intro n hn
  have hs : (decide (n.type = NodeType.solar)) = false := by rw [hn]; decide
  have ha : (decide (n.type = NodeType.alternator)) = false := by rw [hn]; decide
  simp [getTotalDailyProductionAh, getTotalSolarDailyAh, getTotalAlternatorDailyAh,
    List.filter_cons, hs, ha]

/-- C4 witness: adding a 120 W charger to the empty array leaves the daily
production aggregate unchanged. -/
theorem production_solar_alternator_only_witness :
    getTotalDailyProductionAh [⟨"ch1", .v12, .charger 120⟩] 5
      = getTotalDailyProductionAh [] 5 :=
  (production_solar_alternator_only [] 5).2 ⟨"ch1", .v12, .charger 120⟩ rfl

/-! ## Cable oversizing (C8) -/

theorem sections_ge_half : ∀ s ∈ cableStandards, (1/2 : ℚ) ≤ s.sectionMm2 := by
  intro s hs
  fin_cases hs <;> norm_num

theorem lastStandardSpec_eq : lastStandardSpec = ⟨120, 310, 250, 0.153⟩ := rfl

theorem find_section_getD_ge_half (x q : ℚ) (hq : (1/2 : ℚ) ≤ q) :
    (1/2 : ℚ) ≤ ((cableStandards.find? fun s => x ≤ s.sectionMm2).map
      CableSpec.sectionMm2).getD q := by
  cases hf : cableStandards.find? fun s => x ≤ s.sectionMm2 with
  | none => simpa using hq
  | some w => simpa using sections_ge_half w (List.mem_of_find?_eq_some hf)

theorem getRecommendedSection_ge_half (cur L v d : ℚ) :
    (1/2 : ℚ) ≤ getRecommendedSection cur L v d := by
  simp only [getRecommendedSection]
  cases hdrop : calculateMinSection cur L v d with
  | none => norm_num [lastStandardSpec_eq]
  | some m =>
    simp only
    exact find_section_getD_ge_half _ _ (by norm_num [lastStandardSpec_eq])

/-- C8 counterexample: the connection ⟨2.5 mm², 0.1 m⟩ carrying 10 A at 12 V
is flagged oversized by the source (recommended section 1.5 mm², and
2.5 > 1.5 × 1.5), although 10 A is not below 30 % of the 2.5 mm² row's rated
20 A, so the claimed 30 %-of-rated rule disagrees with the code. -/
theorem oversized_rule_counterexample :
    isCableOversized ⟨"c8", "a", "b", 2.5, 0.1⟩ 10 12 = true
    ∧ (cableStandards.find? fun s => s.sectionMm2 = (2.5 : ℚ)) = some ⟨2.5, 20, 15, 7.41⟩
    ∧ ¬ ((10 : ℚ) < 0.3 * 20 ∧ (2.5 : ℚ) > 1.5) := by
  refine ⟨?_, ?_, by norm_num⟩
  · norm_num [isCableOversized, getRecommendedSection, calculateMinSection, cableStandards,
      lastStandardSpec, COPPER_RESISTIVITY, MAX_VOLTAGE_DROP_PERCENT, List.find?]
  · norm_num [cableStandards, List.find?]

/-- C8 amended: a connection is classified oversized exactly when its
installed section exceeds 1.5 × the standard section recommended for the
current it carries, its length and its voltage (at the default 3 % drop
limit); in particular an oversized cable's section always exceeds
0.75 mm² = 1.5 × the smallest standard section. -/
theorem oversized_iff_recommended_margin :
    ∀ (conn : Connection) (cur v : ℚ),
      (isCableOversized conn cur v = true ↔
        getRecommendedSection cur conn.lengthM v MAX_VOLTAGE_DROP_PERCENT * 1.5
          < conn.sectionMm2)
      ∧ (isCableOversized conn cur v = true → (3/4 : ℚ) < conn.sectionMm2) := by
  intro conn cur v
  have hiff : isCableOversized conn cur v = true ↔
      getRecommendedSection cur conn.lengthM v MAX_VOLTAGE_DROP_PERCENT * 1.5
        < conn.sectionMm2 := by
    simp [isCableOversized, gt_iff_lt]
  refine ⟨hiff, fun h => ?_⟩
  have h1 := getRecommendedSection_ge_half cur conn.lengthM v MAX_VOLTAGE_DROP_PERCENT
  have h2 := hiff.mp h
  linarith

/-- C8 witness: the 2.5 mm², 0.1 m, 10 A, 12 V cable of the counterexample is
oversized, hence its section exceeds 0.75 mm². -/
theorem oversized_iff_recommended_margin_witness :
    (3/4 : ℚ) < (⟨"c8", "a", "b", 2.5, 0.1⟩ : Connection).sectionMm2 :=
  (oversized_iff_recommended_margin ⟨"c8", "a", "b", 2.5, 0.1⟩ 10 12).2
    (by norm_num [isCableOversized, getRecommendedSection, calculateMinSection, cableStandards,
      lastStandardSpec, COPPER_RESISTIVITY, MAX_VOLTAGE_DROP_PERCENT, List.find?])

/-! ## Recommended-section adequacy (C7) -/

theorem cableStandards_sorted :
    cableStandards.Pairwise
      (fun a b => a.sectionMm2 < b.sectionMm2 ∧ a.maxCurrentA ≤ b.maxCurrentA) := by
  norm_num [cableStandards, List.pairwise_cons]

theorem find_table_ge :
    ∀ {l : List CableSpec},
      l.Pairwise (fun a b => a.sectionMm2 < b.sectionMm2 ∧ a.maxCurrentA ≤ b.maxCurrentA) →
      ∀ {t x : ℚ} {u v : CableSpec},
        l.find? (fun s => t ≤ s.maxCurrentA) = some u →
        u.sectionMm2 ≤ x →
        l.find? (fun s => x ≤ s.sectionMm2) = some v →
        t ≤ v.maxCurrentA := by
  intro l
  induction l with
  | nil =>
    intro _ t x u v hu
    simp at hu
  | cons a tl ih =>
    intro hl t x u v hu hx hv
    rcases List.pairwise_cons.mp hl with ⟨ha, htl⟩
    by_cases h1 : t ≤ a.maxCurrentA
    · rw [List.find?_cons_of_pos _ (by simpa using h1)] at hu
      injection hu with hu
      subst hu
      by_cases h2 : x ≤ a.sectionMm2
      · rw [List.find?_cons_of_pos _ (by simpa using h2)] at hv
        injection hv with hv
        subst hv
        exact h1
      · rw [List.find?_cons_of_neg _ (by simpa using h2)] at hv
        exact le_trans h1 (ha v (List.mem_of_find?_eq_some hv)).2
    · rw [List.find?_cons_of_neg _ (by simpa using h1)] at hu
      by_cases h2 : x ≤ a.sectionMm2
      · exact absurd ((ha u (List.mem_of_find?_eq_some hu)).1.trans_le (hx.trans h2))
          (lt_irrefl _)
      · rw [List.find?_cons_of_neg _ (by simpa using h2)] at hv
        exact ih htl hu hx hv

theorem largest_spec_mem : (⟨120, 310, 250, 0.153⟩ : CableSpec) ∈ cableStandards := by
  simp [cableStandards]

theorem getRecommendedSection_rated (cur L v : ℚ) (h0 : 0 ≤ cur) (hb : cur * 1.25 ≤ 310) :
    ∃ spec, spec ∈ cableStandards
      ∧ getRecommendedSection cur L v MAX_VOLTAGE_DROP_PERCENT = spec.sectionMm2
      ∧ cur ≤ spec.maxCurrentA := by
  have hcur : cur ≤ cur * 1.25 := by linarith
  simp only [getRecommendedSection]
  cases hfind1 : cableStandards.find? (fun s => cur * 1.25 ≤ s.maxCurrentA) with
  | none =>
    exfalso
    have := List.find?_eq_none.mp hfind1 _ largest_spec_mem
    simp at this
    linarith
  | some u =>
    have hut : cur * 1.25 ≤ u.maxCurrentA := by
      have := List.find?_some hfind1
      simpa using this
    simp only [Option.map_some', Option.getD_some]
    cases hdrop : calculateMinSection cur L v MAX_VOLTAGE_DROP_PERCENT with
    | none =>
      exact ⟨⟨120, 310, 250, 0.153⟩, largest_spec_mem, by simp [lastStandardSpec_eq],
        by linarith⟩
    | some d =>
      cases hfind2 : cableStandards.find? (fun s => max d u.sectionMm2 ≤ s.sectionMm2) with
      | none =>
        exact ⟨⟨120, 310, 250, 0.153⟩, largest_spec_mem,
          by dsimp only; rw [hfind2]; rfl, by linarith⟩
      | some w =>
        refine ⟨w, List.mem_of_find?_eq_some hfind2, by dsimp only; rw [hfind2]; rfl, ?_⟩
        exact le_trans hcur
          (find_table_ge cableStandards_sorted hfind1 (le_max_right d u.sectionMm2) hfind2)

theorem find_spec_by_section :
    ∀ spec ∈ cableStandards,
      (cableStandards.find? fun s => s.sectionMm2 = spec.sectionMm2) = some spec := by
  intro spec hs
  fin_cases hs <;> norm_num [cableStandards, List.find?]

/-- C7 counterexample: at 300 A (beyond any rated row, since
1.25 × 300 > 310), the recommended section for 1 m at 12 V is 35 mm², and a
connection installed with exactly that section carrying the same 300 A is
assigned status `overload` by `analyzeCable`. -/
theorem recommended_section_overload_counterexample :
    getRecommendedSection
        (cableCurrent ⟨"f7", .v12, .consumer none (some 300) 1 1⟩ ⟨"t7", .v12, .bus 100⟩)
        (1 : ℚ) Voltage.v12.toQ MAX_VOLTAGE_DROP_PERCENT = 35
    ∧ (analyzeCable ⟨"cx7", "f7", "t7", 35, 1⟩ ⟨"f7", .v12, .consumer none (some 300) 1 1⟩
        ⟨"t7", .v12, .bus 100⟩).status = .overload := by
  constructor
  · norm_num [cableCurrent, getNodeCurrent, ElectricalNode.type, getRecommendedSection,
      calculateMinSection, cableStandards, lastStandardSpec, COPPER_RESISTIVITY,
      MAX_VOLTAGE_DROP_PERCENT, Voltage.toQ, List.find?,
      (by decide : (decide (NodeType.consumer = NodeType.consumer)) = true)]
  · norm_num [analyzeCable, cableCurrent, getNodeCurrent, ElectricalNode.type, jsRound,
      calculateVoltageDrop, calculatePowerLoss, getRecommendedSection, calculateMinSection,
      cableStandards, lastStandardSpec, COPPER_RESISTIVITY, MAX_VOLTAGE_DROP_PERCENT,
      Voltage.toQ, List.find?,
      (by decide : (decide (NodeType.consumer = NodeType.consumer)) = true)]

/-- C7 amended: whenever the inferred current is non-negative and within the
table (1.25 × current ≤ 310 A, the largest rated row), the recommended
section is a standard row rated for at least that current, and a connection
installed with the recommended section carrying the same current is never
assigned status `overload` by `analyzeCable`; beyond that range the returned
section need not be rated for the current and `analyzeCable` can report
`overload` (see the counterexample). -/
theorem recommended_section_adequate :
    ∀ (cur L v : ℚ), 0 ≤ cur → cur * 1.25 ≤ 310 →
      (∃ spec, spec ∈ cableStandards
        ∧ getRecommendedSection cur L v MAX_VOLTAGE_DROP_PERCENT = spec.sectionMm2
        ∧ cur ≤ spec.maxCurrentA)
      ∧ ∀ (conn : Connection) (fn tn : ElectricalNode),
          cableCurrent fn tn = cur →
          conn.lengthM = L →
          fn.voltage.toQ = v →
          conn.sectionMm2 = getRecommendedSection cur L v MAX_VOLTAGE_DROP_PERCENT →
          (analyzeCable conn fn tn).status ≠ .overload := by
  intro cur L v h0 hb
  obtain ⟨spec, hmem, heq, hrated⟩ := getRecommendedSection_rated cur L v h0 hb
  refine ⟨⟨spec, hmem, heq, hrated⟩, ?_⟩
  intro conn fn tn hcur hlen hvol hsec
  have hsec' : conn.sectionMm2 = spec.sectionMm2 := by rw [hsec, heq]
  have hfind : (cableStandards.find? fun s => s.sectionMm2 = conn.sectionMm2) = some spec := by
    rw [hsec']
    exact find_spec_by_section spec hmem
  show (analyzeCable conn fn tn).status ≠ .overload
  simp only [analyzeCable, hfind, Option.map_some', Option.getD_some]
  have hnot : ¬ (spec.maxCurrentA < cableCurrent fn tn) := by
    rw [hcur]
    exact not_lt.mpr hrated
  rw [if_neg hnot]
  split <;> simp

/-- C7 witness: 10 A over 5 m at 12 V recommends 6 mm² (rated 40 A), and the
cable installed at 6 mm² carrying those 10 A is not overloaded. -/
theorem recommended_section_adequate_witness :
    (∃ spec, spec ∈ cableStandards
      ∧ getRecommendedSection 10 5 12 MAX_VOLTAGE_DROP_PERCENT = spec.sectionMm2
      ∧ (10 : ℚ) ≤ spec.maxCurrentA)
    ∧ (analyzeCable ⟨"w7", "wf", "wt", 6, 5⟩ ⟨"wf", .v12, .consumer none (some 10) 1 1⟩
        ⟨"wt", .v12, .bus 100⟩).status ≠ .overload := by
  have h := recommended_section_adequate 10 5 12 (by norm_num) (by norm_num)
  refine ⟨h.1, ?_⟩
  refine h.2 ⟨"w7", "wf", "wt", 6, 5⟩ ⟨"wf", .v12, .consumer none (some 10) 1 1⟩
    ⟨"wt", .v12, .bus 100⟩ ?_ rfl ?_ ?_
  · norm_num [cableCurrent, getNodeCurrent, ElectricalNode.type,
      (by decide : (decide (NodeType.consumer = NodeType.consumer)) = true)]
  · norm_num [Voltage.toQ]
  · show (6 : ℚ) = _
    norm_num [getRecommendedSection, calculateMinSection, cableStandards, lastStandardSpec,
      COPPER_RESISTIVITY, MAX_VOLTAGE_DROP_PERCENT, List.find?]

/-! ## BFS correctness (C2) -/

theorem adjacent_of_mem_bfsNeighbors {connections : List Connection} {visited : List String}
    {u x : String} (h : x ∈ bfsNeighbors connections visited u) : Adjacent connections u x := by
  induction connections with
  | nil => simp [bfsNeighbors] at h
  | cons c cs ih =>
    rw [bfsNeighbors_cons] at h
    rcases List.mem_append.mp h with h1 | h2
    · split at h1
      · rename_i hcond
        rcases List.mem_singleton.mp h1 with rfl
        simp only [Bool.and_eq_true, decide_eq_true_eq] at hcond
        exact ⟨c, List.mem_cons_self c cs, Or.inl ⟨hcond.1, rfl⟩⟩
      · simp at h1
    · rcases List.mem_append.mp h2 with h3 | h4
      · split at h3
        · rename_i hcond
          rcases List.mem_singleton.mp h3 with rfl
          simp only [Bool.and_eq_true, decide_eq_true_eq] at hcond
          exact ⟨c, List.mem_cons_self c cs, Or.inr ⟨hcond.1, rfl⟩⟩
        · simp at h3
      · obtain ⟨conn, hconn, hcase⟩ := ih h4
        exact ⟨conn, List.mem_cons_of_mem c hconn, hcase⟩

theorem mem_bfsNeighbors_of_adjacent {connections : List Connection} {visited : List String}
    {u x : String} (hadj : Adjacent connections u x) (hx : x ∉ visited) :
    x ∈ bfsNeighbors connections visited u := by
  obtain ⟨conn, hconn, hcase⟩ := hadj
  have hxc : visited.contains x = false := by
    cases hb : visited.contains x
    · rfl
    · exact absurd ((list_contains_iff visited x).mp hb) hx
  induction connections with
  | nil => simp at hconn
  | cons c cs ih =>
    rw [bfsNeighbors_cons]
    rcases List.mem_cons.mp hconn with rfl | hmem
    · rcases hcase with ⟨hfrom, hto⟩ | ⟨hto, hfrom⟩
      · subst hfrom
        subst hto
        refine List.mem_append_left _ ?_
        rw [if_pos]
        · exact List.mem_singleton.mpr rfl
        · simp [hx]
      · subst hto
        subst hfrom
        refine List.mem_append_right _ (List.mem_append_left _ ?_)
        rw [if_pos]
        · exact List.mem_singleton.mpr rfl
        · simp [hx]
    · exact List.mem_append_right _ (List.mem_append_right _ (ih hmem))

theorem bfsAux_true_sound (nodes : List ElectricalNode) (conns : List Connection)
    (start s : String) :
    ∀ (visited queue : List String) (hq : ∀ x ∈ queue, x ∈ bfsIds start conns),
      bfsAux nodes conns start visited queue hq = true →
      (∀ q ∈ queue, ReachableSource nodes conns q → ReachableSource nodes conns s) →
      ReachableSource nodes conns s := by
  intro visited queue hq
  induction visited, queue, hq using bfsAux.induct nodes conns start with
  | case1 visited hq _ =>
    intro htrue _
    rw [bfsAux] at htrue
    cases htrue
  | case2 visited u rest hq hv _ ih =>
    intro htrue hinv
    rw [bfsAux] at htrue
    rw [dif_pos hv] at htrue
    exact ih htrue (fun q hqm => hinv q (List.mem_cons_of_mem u hqm))
  | case3 visited u rest hq hv hfind _ ih =>
    intro htrue hinv
    rw [bfsAux] at htrue
    rw [dif_neg hv, hfind] at htrue
    exact ih htrue (fun q hqm => hinv q (List.mem_cons_of_mem u hqm))
  | case4 visited u rest hq hv n hfind hsrc _ =>
    intro _ hinv
    exact hinv u (List.mem_cons_self u rest) (ReachableSource.found u n hfind hsrc)
  | case5 visited u rest hq hv n hfind hns _ ih =>
    intro htrue hinv
    rw [bfsAux] at htrue
    rw [dif_neg hv, hfind] at htrue
    simp only [hns, if_false, reduceIte] at htrue
    refine ih htrue ?_
    intro q hqm hrq
    rcases List.mem_append.mp hqm with h | h
    · exact hinv q (List.mem_cons_of_mem u h) hrq
    · have hadj := adjacent_of_mem_bfsNeighbors h
      exact hinv u (List.mem_cons_self u rest)
        (ReachableSource.step u q n hfind hadj hrq)

/-- After the BFS stops, the visited region contains no source node and is
closed under adjacency (up to the remaining queue). -/
def BfsClosed (nodes : List ElectricalNode) (conns : List Connection)
    (visited queue : List String) : Prop :=
  (∀ v ∈ visited, ∀ n, findNode nodes v = some n → isSourceNode n = false) ∧
  (∀ v ∈ visited, ∀ n, findNode nodes v = some n →
    ∀ w, Adjacent conns v w → w ∈ visited ∨ w ∈ queue)

theorem bfsAux_false_not_reach (nodes : List ElectricalNode) (conns : List Connection)
    (start : String) :
    ∀ (visited queue : List String) (hq : ∀ x ∈ queue, x ∈ bfsIds start conns),
      bfsAux nodes conns start visited queue hq = false →
      BfsClosed nodes conns visited queue →
      ∀ v, (v ∈ visited ∨ v ∈ queue) → ¬ ReachableSource nodes conns v := by
  intro visited queue hq
  induction visited, queue, hq using bfsAux.induct nodes conns start with
  | case1 visited hq _ =>
    intro _ hclosed v hv hreach
    have key : ∀ w : String, ReachableSource nodes conns w → w ∈ visited → False := by
      intro w hw
      induction hw with
      | found id n hfind hsrc =>
        intro hidv
        rw [hclosed.1 id hidv n hfind] at hsrc
        cases hsrc
      | step id next n hfind hadj hnext ih =>
        intro hidv
        rcases hclosed.2 id hidv n hfind next hadj with hnv | hnq
        · exact ih hnv
        · simp at hnq
    rcases hv with hv | hv
    · exact key v hreach hv
    · simp at hv
  | case2 visited u rest hq hv _ ih =>
    intro hfalse hclosed v hvmem
    rw [bfsAux] at hfalse
    rw [dif_pos hv] at hfalse
    have hu : u ∈ visited := (list_contains_iff visited u).mp hv
    have hclosed' : BfsClosed nodes conns visited rest := by
      refine ⟨hclosed.1, ?_⟩
      intro x hx n hn w hw
      rcases hclosed.2 x hx n hn w hw with h | h
      · exact Or.inl h
      · rcases List.mem_cons.mp h with rfl | h
        · exact Or.inl hu
        · exact Or.inr h
    refine ih hfalse hclosed' v ?_
    rcases hvmem with h | h
    · exact Or.inl h
    · rcases List.mem_cons.mp h with rfl | h
      · exact Or.inl hu
      · exact Or.inr h
  | case3 visited u rest hq hv hfind _ ih =>
    intro hfalse hclosed v hvmem
    rw [bfsAux] at hfalse
    rw [dif_neg hv, hfind] at hfalse
    have hclosed' : BfsClosed nodes conns (u :: visited) rest := by
      constructor
      · intro x hx n hn
        rcases List.mem_cons.mp hx with rfl | hx
        · rw [hfind] at hn
          cases hn
        · exact hclosed.1 x hx n hn
      · intro x hx n hn w hw
        rcases List.mem_cons.mp hx with rfl | hx
        · rw [hfind] at hn
          cases hn
        · rcases hclosed.2 x hx n hn w hw with h | h
          · exact Or.inl (List.mem_cons_of_mem u h)
          · rcases List.mem_cons.mp h with rfl | h
            · exact Or.inl (List.mem_cons_self w visited)
            · exact Or.inr h
    refine ih hfalse hclosed' v ?_
    rcases hvmem with h | h
    · exact Or.inl (List.mem_cons_of_mem u h)
    · rcases List.mem_cons.mp h with rfl | h
      · exact Or.inl (List.mem_cons_self v visited)
      · exact Or.inr h
  | case4 visited u rest hq hv n hfind hsrc _ =>
    intro hfalse _
    rw [bfsAux] at hfalse
    rw [dif_neg hv, hfind] at hfalse
    simp [hsrc] at hfalse
  | case5 visited u rest hq hv n hfind hns _ ih =>
    intro hfalse hclosed v hvmem
    rw [bfsAux] at hfalse
    rw [dif_neg hv, hfind] at hfalse
    simp only [hns, if_false, reduceIte] at hfalse
    have hclosed' :
        BfsClosed nodes conns (u :: visited)
          (rest ++ bfsNeighbors conns (u :: visited) u) := by
      constructor
      · intro x hx m hm
        rcases List.mem_cons.mp hx with rfl | hx
        · rw [hfind] at hm
          injection hm with hm
          subst hm
          exact Bool.not_eq_true _ ▸ (by simpa using hns)
        · exact hclosed.1 x hx m hm
      · intro x hx m hm w hw
        rcases List.mem_cons.mp hx with rfl | hx
        · by_cases hwv : w ∈ x :: visited
          · exact Or.inl hwv
          · exact Or.inr (List.mem_append_right _
              (mem_bfsNeighbors_of_adjacent hw hwv))
        · rcases hclosed.2 x hx m hm w hw with h | h
          · exact Or.inl (List.mem_cons_of_mem u h)
          · rcases List.mem_cons.mp h with rfl | h
            · exact Or.inl (List.mem_cons_self w visited)
            · exact Or.inr (List.mem_append_left _ h)
    refine ih hfalse hclosed' v ?_
    rcases hvmem with h | h
    · exact Or.inl (List.mem_cons_of_mem u h)
    · rcases List.mem_cons.mp h with rfl | h
      · exact Or.inl (List.mem_cons_self v visited)
      · exact Or.inr (List.mem_append_left _ h)

theorem isNodeConnectedToSource_iff (nodeId : String) (nodes : List ElectricalNode)
    (conns : List Connection) :
    isNodeConnectedToSource nodeId nodes conns = true ↔
      ReachableSource nodes conns nodeId := by
  constructor
  · intro h
    exact bfsAux_true_sound nodes conns nodeId nodeId [] [nodeId] _ h
      (fun q hqm hr => by
        rcases List.mem_singleton.mp hqm with rfl
        exact hr)
  · intro hreach
    by_contra hfalse
    have hf : isNodeConnectedToSource nodeId nodes conns = false := by
      cases hb : isNodeConnectedToSource nodeId nodes conns
      · rfl
      · exact absurd hb hfalse
    exact bfsAux_false_not_reach nodes conns nodeId [] [nodeId] _ hf
      ⟨by simp, by simp⟩ nodeId (Or.inr (List.mem_singleton.mpr rfl)) hreach

/-- C2: `findUnpoweredConsumers` returns exactly the consumer nodes from
which no battery/solar/alternator/charger node is reachable through the
undirected graph of connections over the existing nodes, and per consumer
`isNodeConnectedToSource` answers exactly that reachability; the reachability
predicate mentions no voltage, current or cable-section figure. -/
theorem findUnpoweredConsumers_reachability :
    ∀ (nodes : List ElectricalNode) (conns : List Connection) (n : ElectricalNode),
      (n ∈ findUnpoweredConsumers nodes conns ↔
        n ∈ nodes ∧ n.type = .consumer ∧ ¬ ReachableSource nodes conns n.id)
      ∧ (isNodeConnectedToSource n.id nodes conns = true ↔
          ReachableSource nodes conns n.id) := by
  intro nodes conns n
  have hiff := isNodeConnectedToSource_iff n.id nodes conns
  refine ⟨⟨?_, ?_⟩, hiff⟩
  · intro hmem
    obtain ⟨hmem2, hq⟩ := List.mem_filter.mp hmem
    obtain ⟨hin, hp⟩ := List.mem_filter.mp hmem2
    refine ⟨hin, by simpa using hp, ?_⟩
    intro hre
    rw [hiff.mpr hre] at hq
    cases hq
  · rintro ⟨hin, htype, hnre⟩
    refine List.mem_filter.mpr ⟨List.mem_filter.mpr ⟨hin, by simpa using htype⟩, ?_⟩
    have hfalse : isNodeConnectedToSource n.id nodes conns = false := by
      cases hb : isNodeConnectedToSource n.id nodes conns
      · rfl
      · exact absurd (hiff.mp hb) hnre
    simp [hfalse]

end ElectricBoat
